import Mathlib

/-!
Verification development for the Smart Capture Tool repository.

Shallow embedding of the capture orchestration engine:
- `retryFrom` / `retryRun` embed `retry` from `lib/utils.js`;
- `sanitizeFilename` embeds `sanitizeFilename` from `lib/utils.js`
  (String.replace with a global regex is a single left-to-right
  non-overlapping pass, embedded at the character-list level);
- `startCapture`, `captureLoopGo`, `pauseCapture`, `resumeCapture`,
  `stopAndSave` and `stabilizeGo` embed the corresponding methods of
  `CaptureSession` in `lib/capture-session.js`;
- `addToQueue` and `startProcessing` embed `BatchProcessor` from
  `lib/batch-processor.js`.

External collaborators (puppeteer, pdf-lib, tesseract) are modelled as
oracles: each fallible automation call is a parameter giving the outcome
of each invocation.  The embedding is sequential: it describes runs in
which no concurrent mutation of the session happens between the
suspension points, which is the setting every claim quantifies over.
-/

namespace SmartCapture

/-- Embeds `retry` from `lib/utils.js`:
for `attempt` in `1..maxRetries`, invoke `fn`; return the first success;
on failure, when `attempt < maxRetries`, invoke the observer and retry;
after exhausting the attempts, throw the last error (`none` encodes the
`undefined` thrown when the loop body never ran).
`fn i` is the outcome of the `i`-th invocation (1-based).
Returns (result, number of invocations, number of observer calls). -/
def retryFrom (fn : Nat → Except ε α) : Nat → Nat → Option ε →
    Except (Option ε) α × Nat × Nat
  | _, 0, last => (Except.error last, 0, 0)
  | attempt, r + 1, _ =>
    match fn attempt with
    | Except.ok a => (Except.ok a, 1, 0)
    | Except.error e =>
      if r = 0 then (Except.error (some e), 1, 0)
      else
        let p := retryFrom fn (attempt + 1) r (some e)
        (p.1, p.2.1 + 1, p.2.2 + 1)

/-- `retry(fn, maxRetries, delayMs, onRetry)` starts at attempt 1 with no
last error recorded. -/
def retryRun (fn : Nat → Except ε α) (maxRetries : Nat) :
    Except (Option ε) α × Nat × Nat :=
  retryFrom fn 1 maxRetries none

/-- Embeds `.replace(/[\/\\]/g, '')` from `sanitizeFilename`:
every `/` and `\` character is removed. -/
def removeSlashes (cs : List Char) : List Char :=
  cs.filter (fun c => c ≠ '/' ∧ c ≠ '\\')

/-- Embeds `.replace(/\.\./g, '')` from `sanitizeFilename`: a single
left-to-right pass removing non-overlapping occurrences of `..`. -/
def removeDotDot : List Char → List Char
  | '.' :: '.' :: rest => removeDotDot rest
  | c :: rest => c :: removeDotDot rest
  | [] => []

/-- Embeds `.replace(/[<>:"|?*]/g, '')` from `sanitizeFilename`. -/
def removeInvalidChars (cs : List Char) : List Char :=
  cs.filter (fun c => c ∉ ['<', '>', ':', '"', '|', '?', '*'])

/-- Embeds `sanitizeFilename` from `lib/utils.js`: remove slashes, then
remove double dots, then remove invalid characters, then `slice(0, 255)`. -/
def sanitizeFilename (s : String) : String :=
  ⟨(removeInvalidChars (removeDotDot (removeSlashes s.data))).take 255⟩

/-- The session states of `CaptureSession` (`this.state`). -/
inductive CState
  | IDLE
  | READY
  | CAPTURING
  | PAUSED
  | COMPLETED
deriving DecidableEq, Repr

/-- A captured frame as stored in `this.capturedImages`:
`{ buffer, isJpeg }`, the buffer modelled as its byte list. -/
structure Frame where
  buffer : List Nat
  isJpeg : Bool
deriving DecidableEq, Repr

/-- Events emitted on the session event bus that carry state (logs are
telemetry and are not modelled).  `errorEv` mirrors the payloads of
`emitEvent('error', ...)`: each field that a given emitter omits is
`none`; in particular the capture-loop error carries `page` but no
`recoverable` field. -/
inductive Event
  | progress (count : Nat)
  | errorEv (message : Option String) (page : Option Nat) (recoverable : Option Bool)
  | completed (count : Nat)
deriving DecidableEq, Repr

/-- The mutable session fields that the capture loop reads and writes. -/
structure Sess where
  frames : List Frame
  cstate : CState
  active : Bool
  events : List Event
  memoryBytes : Nat
deriving DecidableEq, Repr

/-- The fields of `this.config` that steer the capture loop. -/
structure Config where
  totalPages : Nat
  retryAttempts : Nat
deriving DecidableEq, Repr

/-- Oracle for one iteration of the capture loop: the outcome of
`page.bringToFront()` and of each successive attempt of
`page.screenshot(opts)` and `keyboard.press('ArrowRight')` (1-based, as
consumed by `retry`). -/
structure PageEnv where
  bringToFront : Except String Unit
  screenshotAttempts : Nat → Except String Frame
  advanceAttempts : Nat → Except String Unit

/-- The `try` block of one `_captureLoop` iteration: bring to front
(`sleep`, `waitForScreenToStabilize` and the overlay calls never throw
and do not touch the session fields), then screenshot through `retry`,
then page-advance through `retry`.  An error aborts the iteration with
the thrown value. -/
def iterBody (retryAttempts : Nat) (env : PageEnv) : Except (Option String) Frame :=
  match env.bringToFront with
  | Except.error e => Except.error (some e)
  | Except.ok _ =>
    match (retryRun env.screenshotAttempts retryAttempts).1 with
    | Except.error e => Except.error e
    | Except.ok frame =>
      match (retryRun env.advanceAttempts retryAttempts).1 with
      | Except.error e => Except.error e
      | Except.ok _ => Except.ok frame

/-- The code after the `for` loop of `_captureLoop`: when the loop is
still active, set the state to COMPLETED and emit `completed` with the
final frame count. -/
def finishLoop (s : Sess) : Sess :=
  if s.active then
    { s with cstate := CState.COMPLETED,
             events := s.events ++ [Event.completed s.frames.length] }
  else s

/-- Embeds the `for` loop of `_captureLoop`.  `i` is the loop index and
`fuel` maintains `fuel = totalPages - i`, so `fuel = 0` is exactly the
exit of the `for` condition `i < this.config.totalPages`.  Each
iteration: break if the active flag is cleared; the pause-wait
(`while (this.state === 'PAUSED')`) never terminates in a run without
concurrent mutation, encoded as `none`; otherwise emit `progress (i+1)`,
run the iteration body, and on success append the frame and accumulate
its byte size, on error emit the fatal error event carrying
`page = i + 1` (and no `recoverable` field), clear the active flag and
break. -/
def captureLoopGo (cfg : Config) (env : Nat → PageEnv) :
    Nat → Nat → Sess → Option Sess
  | 0, _, s => some (finishLoop s)
  | fuel + 1, i, s =>
    if s.active = false then some (finishLoop s)
    else if s.cstate = CState.PAUSED then none
    else
      let s1 := { s with events := s.events ++ [Event.progress (i + 1)] }
      match iterBody cfg.retryAttempts (env i) with
      | Except.ok frame =>
        captureLoopGo cfg env fuel (i + 1)
          { s1 with frames := s1.frames ++ [frame],
                    memoryBytes := s1.memoryBytes + frame.buffer.length }
      | Except.error e =>
        some (finishLoop
          { s1 with
              events := s1.events ++ [Event.errorEv e (some (i + 1)) none],
              active := false })

/-- `_captureLoop()`: the loop index starts at `capturedImages.length`. -/
def captureLoop (cfg : Config) (env : Nat → PageEnv) (s : Sess) : Option Sess :=
  captureLoopGo cfg env (cfg.totalPages - s.frames.length) s.frames.length s

/-- Embeds `startCapture(config)`: throw `'Browser not connected'` when
there is no page or the state is IDLE; otherwise overwrite the config
with the merge `{...this.config, ...config}` (the caller passes the
merged record), set the state to CAPTURING, set the active flag, and
fire the loop.  The returned session is the state from which
`_captureLoop` starts. -/
def startCapture (hasPage : Bool) (s : Sess) : Except String Sess :=
  if hasPage = false ∨ s.cstate = CState.IDLE then
    Except.error "Browser not connected"
  else
    Except.ok { s with cstate := CState.CAPTURING, active := true }

/-- Embeds `pauseCapture()`: unconditionally set the state to PAUSED. -/
def pauseCapture (s : Sess) : Sess :=
  { s with cstate := CState.PAUSED }

/-- Embeds `resumeCapture()`: set the state to CAPTURING only when it is
currently PAUSED. -/
def resumeCapture (s : Sess) : Sess :=
  if s.cstate = CState.PAUSED then { s with cstate := CState.CAPTURING }
  else s

/-- How `waitForScreenToStabilize` returned: `stable` is the early
`return` after enough consecutive identical signatures; `timedOut` is
the exit of the `while` condition, after which the warning
`'Screen did not stabilize within timeout.'` is logged; `fuelOut` is a
model artifact for runs longer than the supplied fuel. -/
inductive StabOutcome
  | stable
  | timedOut
  | fuelOut
deriving DecidableEq, Repr

/-- Embeds the `while` loop of `waitForScreenToStabilize`.  `polls k` is
the signature (`computeSimpleHash` value, abstracted as a `Nat`) of the
`k`-th comparison screenshot, `none` when that screenshot throws (the
`catch` path: nothing is updated, the current interval is slept).
State: poll index `k`, `elapsed` time (`Date.now() - startTime`, the
polls themselves taking no time), `lastHash`, `stableCount`,
`checkInterval`.  All durations are in tenths of a millisecond so that
the growth factor 1.3 of the source is the exact `* 13 / 10`: before
the detector either returns or resets, the interval can grow at most
once (a second consecutive match returns), so the only products taken
are exact and the floor division never deviates from the source's
double arithmetic.  On a match (`lastHash && current === lastHash`) the
counter is incremented and the function returns once it reaches
`requiredStableCount = 2`, else the interval grows by the 1.3 factor
capped at `maxInterval` (800 ms); on a change the counter and the
interval reset to the base.  The run is sequential: the
`captureLoopActive` check stays true.  Returns the outcome and the
number of polls taken. -/
def stabilizeGo (polls : Nat → Option Nat) (timeout base maxI : Nat) :
    Nat → Nat → Nat → Option Nat → Nat → Nat → StabOutcome × Nat
  | 0, k, _, _, _, _ => (StabOutcome.fuelOut, k)
  | fuel + 1, k, elapsed, lastHash, stableCount, checkInterval =>
    if elapsed < timeout then
      match polls k with
      | some h =>
        if lastHash = some h then
          if 2 ≤ stableCount + 1 then (StabOutcome.stable, k + 1)
          else
            stabilizeGo polls timeout base maxI fuel (k + 1)
              (elapsed + min (checkInterval * 13 / 10) maxI) (some h)
              (stableCount + 1) (min (checkInterval * 13 / 10) maxI)
        else
          stabilizeGo polls timeout base maxI fuel (k + 1)
            (elapsed + base) (some h) 0 base
      | none =>
        stabilizeGo polls timeout base maxI fuel (k + 1)
          (elapsed + checkInterval) lastHash stableCount checkInterval
    else (StabOutcome.timedOut, k)

/-- `waitForScreenToStabilize(timeout = 5000, baseInterval = 300)` in
tenths of a millisecond: timeout 50000, base interval 3000, interval
cap 8000; start with no last hash, counter 0, interval at the base.
`fuel` bounds the number of polls the model unrolls. -/
def waitForScreenToStabilize (polls : Nat → Option Nat) (fuel : Nat)
    (timeout : Nat := 50000) (baseInterval : Nat := 3000) : StabOutcome × Nat :=
  stabilizeGo polls timeout baseInterval 8000 fuel 0 0 none 0 baseInterval

/-- One OCR result as consumed by `stopAndSave` (only `.text` is read). -/
structure OCRRes where
  text : String
deriving DecidableEq, Repr

/-- The invisible text layer drawn by `page.drawText`: the OCR text at
the page origin, font size 1, white, opacity 0.01 (recorded in
hundredths, so `opacityHundredths = 1` is the source's `0.01`). -/
structure TextDraw where
  text : String
  x : Nat
  y : Nat
  size : Nat
  opacityHundredths : Nat
  white : Bool
deriving DecidableEq, Repr

/-- One page of the assembled document: created with
`addPage([img.width, img.height])`, the image drawn over the full page,
plus the optional invisible text layer. -/
structure PdfPage where
  width : Nat
  height : Nat
  image : Option (Nat × Nat × Nat × Nat)
  textLayer : Option TextDraw
deriving DecidableEq, Repr

/-- Oracle for the external calls of `stopAndSave`: `embed i` is the
result of `pdfDoc.embedPng`/`embedJpg` on frame `i` (its pixel
dimensions, `none` when embedding throws and the page is skipped),
`fontOk i` tells whether `embedFont`/`drawText` for page `i` succeeds
(the inner `catch` swallows a failure), and `ocrOutcome` is the result
of `ocrProcessor.processImages` when OCR is enabled. -/
structure SaveEnv where
  embed : Nat → Option (Nat × Nat)
  fontOk : Nat → Bool
  ocrOutcome : Except String (List OCRRes)

/-- The text layer drawn on page `i`: when OCR is enabled and
`ocrResults[i] && ocrResults[i].text` is truthy (the entry exists and
its text is non-empty), the invisible text draw — unless the font
embedding throws, which the inner `catch` swallows. -/
def pageText (enableOcr : Bool) (fontOk : Nat → Bool)
    (ocrResults : List OCRRes) (i : Nat) : Option TextDraw :=
  if enableOcr then
    match ocrResults[i]? with
    | some r =>
      if r.text ≠ "" then
        if fontOk i then
          some { text := r.text, x := 0, y := 0, size := 1,
                 opacityHundredths := 1, white := true }
        else none
      else none
    | none => none
  else none

/-- Embeds the image-embedding `for` loop of `stopAndSave`, frame index
`i` running over the frames.  A failed embed logs and skips the page;
on success the page is sized to the image, the image drawn at the
origin over the full page, plus the `pageText` layer. -/
def buildPages (enableOcr : Bool) (embed : Nat → Option (Nat × Nat))
    (fontOk : Nat → Bool) (ocrResults : List OCRRes) :
    Nat → List Frame → List PdfPage
  | _, [] => []
  | i, _ :: rest =>
    let tail := buildPages enableOcr embed fontOk ocrResults (i + 1) rest
    match embed i with
    | none => tail
    | some (w, h) =>
      { width := w, height := h, image := some (0, 0, w, h),
        textLayer := pageText enableOcr fontOk ocrResults i } :: tail

/-- The OCR result list `stopAndSave` works with: the outcome of
`ocrProcessor.processImages` when OCR is enabled — a thrown OCR run
leaves the list empty and assembly continues without text — and empty
when OCR is disabled. -/
def ocrResultsOf (enableOcr : Bool) (env : SaveEnv) : List OCRRes :=
  if enableOcr then
    match env.ocrOutcome with
    | Except.ok rs => rs
    | Except.error _ => []
  else []

/-- Embeds `stopAndSave()`: clear the active flag and set the state to
IDLE; with no frames, stop there (no document).  Otherwise build one
page per successfully embedded frame and reset the frame list and the
memory counter.  Returns the final session and the assembled document,
`none` when no document was produced. -/
def stopAndSave (enableOcr : Bool) (env : SaveEnv) (s : Sess) :
    Sess × Option (List PdfPage) :=
  let s0 := { s with active := false, cstate := CState.IDLE }
  if s0.frames.length = 0 then (s0, none)
  else
    let pages := buildPages enableOcr env.embed env.fontOk
      (ocrResultsOf enableOcr env) 0 s0.frames
    ({ s0 with frames := [], memoryBytes := 0 }, some pages)

/-- Status of a batch queue item. -/
inductive BStatus
  | pending
  | processing
  | completed
  | failed
deriving DecidableEq, Repr

/-- The `item.result` record: `{ success, filename, path }` on success,
`{ success, error }` on failure (fields absent in the other case are
`none`; `path` is determined by `filename`, not repeated). -/
structure BResult where
  success : Bool
  filename : Option String
  errorMsg : Option String
deriving DecidableEq, Repr

/-- A batch queue entry as built by `addToQueue`. -/
structure BItem where
  id : Nat
  url : String
  status : BStatus
  result : Option BResult
deriving DecidableEq, Repr

/-- Batch events that carry state: `batch_progress` carries
`current = currentIndex + 1` (the status snapshot is recoverable from
the state), `batch_complete` ends a run. -/
inductive BEvent
  | progress (current : Nat)
  | complete
deriving DecidableEq, Repr

/-- The mutable fields of `BatchProcessor`. -/
structure BatchSt where
  queue : List BItem
  isProcessing : Bool
  currentIndex : Nat
  results : List BResult
  events : List BEvent
deriving DecidableEq, Repr

/-- The empty processor as built by the constructor. -/
def batchInit : BatchSt :=
  { queue := [], isProcessing := false, currentIndex := 0, results := [],
    events := [] }

/-- Embeds the `items.map((item, idx) => ({ id: Date.now() + idx, ... }))`
of `addToQueue`: `clock idx` is the `Date.now()` reading made while
mapping the `idx`-th item (the clock is read once per item). -/
def mkItems (clock : Nat → Nat) : Nat → List String → List BItem
  | _, [] => []
  | idx, u :: rest =>
    { id := clock idx + idx, url := u, status := BStatus.pending,
      result := none } :: mkItems clock (idx + 1) rest

/-- Embeds `addToQueue(items)`: append the new entries with `pending`
status and ids `Date.now() + idx`, emit a progress event, and return the
assigned ids. -/
def addToQueue (clock : Nat → Nat) (urls : List String) (st : BatchSt) :
    BatchSt × List Nat :=
  let newItems := mkItems clock 0 urls
  ({ st with queue := st.queue ++ newItems,
             events := st.events ++ [BEvent.progress (st.currentIndex + 1)] },
   newItems.map (fun it => it.id))

/-- Oracle for one batch item: whether `this.session.page` is set, the
outcome of `page.goto(item.url, ...)`, the outcome of
`page.screenshot({ path, fullPage: true })`, and the filename
`batch_${Date.now()}_${sanitized}.png` computed for the item. -/
structure ItemEnv where
  pageExists : Bool
  navigate : Except String Unit
  screenshot : Except String Unit
  filename : String

/-- The `try` block of one `startProcessing` iteration: without a page
throw `'Browser not launched'`; otherwise navigate, settle, screenshot,
and produce the success result. -/
def processItem (env : ItemEnv) : Except String BResult :=
  if env.pageExists then
    match env.navigate with
    | Except.error e => Except.error e
    | Except.ok _ =>
      match env.screenshot with
      | Except.error e => Except.error e
      | Except.ok _ =>
        Except.ok { success := true, filename := some env.filename,
                    errorMsg := none }
  else Except.error "Browser not launched"

/-- Embeds the `for` loop of `startProcessing` over the queue (the run
is sequential: `stopProcessing` is never called mid-run, so the
cancellation check stays true).  Each item is marked `processing` with a
progress event, then `completed` with its result or `failed` with the
error message — a failure never aborts the run — followed by another
progress event.  Returns the updated items, the pushed results, and the
emitted events. -/
def runItems (env : Nat → ItemEnv) :
    Nat → List BItem → List BItem × List BResult × List BEvent
  | _, [] => ([], [], [])
  | i, item :: rest =>
    let outcome := processItem (env i)
    let step :=
      match outcome with
      | Except.ok r => ({ item with status := BStatus.completed, result := some r }, r)
      | Except.error e =>
        let r : BResult := { success := false, filename := none, errorMsg := some e }
        ({ item with status := BStatus.failed, result := some r }, r)
    let tail := runItems env (i + 1) rest
    (step.1 :: tail.1, step.2 :: tail.2.1,
     BEvent.progress (i + 1) :: BEvent.progress (i + 1) :: tail.2.2)

/-- Embeds `startProcessing(options)`: throw when already processing or
when the queue is empty; otherwise reset `currentIndex` and `results`,
process every item strictly in order, clear the processing flag, and
emit `batch_complete`.  The final `currentIndex` is the index of the
last item. -/
def startProcessing (env : Nat → ItemEnv) (st : BatchSt) :
    Except String BatchSt :=
  if st.isProcessing then Except.error "Already processing"
  else if st.queue.length = 0 then Except.error "Queue is empty"
  else
    let run := runItems env 0 st.queue
    Except.ok
      { queue := run.1, isProcessing := false,
        currentIndex := st.queue.length - 1, results := run.2.1,
        events := st.events ++ run.2.2 ++ [BEvent.complete] }

/-! Concrete instances used to evaluate the theorems on closed inputs. -/

/-- An operation that fails once and then succeeds. -/
def retryFnOnceFailing : Nat → Except String Nat :=
  fun i => if i = 2 then Except.ok 42 else Except.error "boom"

/-- An operation that fails on every invocation. -/
def retryFnAlwaysFailing : Nat → Except String Nat :=
  fun _ => Except.error "always"

/-- A sample frame. -/
def frameA : Frame := { buffer := [1, 2, 3], isJpeg := false }

/-- A page environment in which every automation call succeeds at its
first attempt, always producing `frameA`. -/
def pageEnvOk : PageEnv :=
  { bringToFront := Except.ok (),
    screenshotAttempts := fun _ => Except.ok frameA,
    advanceAttempts := fun _ => Except.ok () }

/-- A page environment in which every screenshot attempt fails. -/
def pageEnvShotFails : PageEnv :=
  { bringToFront := Except.ok (),
    screenshotAttempts := fun _ => Except.error "shot failed",
    advanceAttempts := fun _ => Except.ok () }

/-- The session as `startCapture` leaves it on a fresh `READY` session:
no frames, state `CAPTURING`, loop flag set. -/
def freshCapturing : Sess :=
  { frames := [], cstate := CState.CAPTURING, active := true, events := [],
    memoryBytes := 0 }

/-- An environment whose first page succeeds and whose later pages fail
every screenshot attempt. -/
def envMixed : Nat → PageEnv :=
  fun i => if i = 0 then pageEnvOk else pageEnvShotFails

/-- An idle session (browser attached but not launched into a run). -/
def sessIdle : Sess :=
  { frames := [], cstate := CState.IDLE, active := false, events := [],
    memoryBytes := 0 }

/-- A paused session holding one frame. -/
def sessPaused : Sess :=
  { frames := [frameA], cstate := CState.PAUSED, active := true, events := [],
    memoryBytes := 3 }

/-- A signature stream whose first two polls are identical and whose
later polls all differ from their predecessors. -/
def pollsTwoThenDiff : Nat → Option Nat :=
  fun j => some (if j < 2 then 5 else j)

/-- A pending batch item. -/
def bItem (n : Nat) (u : String) : BItem :=
  { id := n, url := u, status := BStatus.pending, result := none }

/-- A batch item environment whose navigation and screenshot succeed. -/
def itemEnvOk (fname : String) : ItemEnv :=
  { pageExists := true, navigate := Except.ok (),
    screenshot := Except.ok (), filename := fname }

/-- A batch item environment whose navigation throws. -/
def itemEnvNavFails (msg : String) : ItemEnv :=
  { pageExists := true, navigate := Except.error msg,
    screenshot := Except.ok (), filename := "unused" }

/-- The item environment for the three-item run in which only the
second item's navigation throws. -/
def envSecondFails : Nat → ItemEnv :=
  fun i => if i = 1 then itemEnvNavFails "nav error" else itemEnvOk "shot.png"

/-- The success result of a batch item saved to `shot.png`. -/
def bresShot : BResult :=
  { success := true, filename := some "shot.png", errorMsg := none }

/-- The failure result recorded for a batch item whose processing threw
the message `m`. -/
def bresFail (m : String) : BResult :=
  { success := false, filename := none, errorMsg := some m }

/-- A ready-to-run batch state holding three pending items. -/
def batchThree : BatchSt :=
  { queue := [bItem 1 "a", bItem 2 "b", bItem 3 "c"], isProcessing := false,
    currentIndex := 0, results := [], events := [] }

/-- A completed session holding two frames, ready to be saved. -/
def sessTwoFrames : Sess :=
  { frames := [frameA, { buffer := [9, 9], isJpeg := true }],
    cstate := CState.COMPLETED, active := false, events := [],
    memoryBytes := 5 }

/-- A save environment in which every embed succeeds with dimensions
`(10 + i, 20)`, fonts embed fine, and OCR returned text for both
frames. -/
def saveEnvW : SaveEnv :=
  { embed := fun i => some (10 + i, 20),
    fontOk := fun _ => true,
    ocrOutcome := Except.ok [{ text := "hello" }, { text := "world" }] }

/-! ## Helper lemmas about the retry executor -/

/-- When the operation fails at attempts `attempt .. attempt+j-1` and
succeeds at attempt `attempt+j`, with `j < r` attempts remaining, the
retry loop returns the success after `j + 1` invocations and `j`
observer calls. -/
theorem retryFrom_ok_after (fn : Nat → Except ε α) (a : α) :
    ∀ (j r attempt : Nat) (last : Option ε), j < r →
      (∀ t, t < j → ∃ e, fn (attempt + t) = Except.error e) →
      fn (attempt + j) = Except.ok a →
      retryFrom fn attempt r last = (Except.ok a, j + 1, j) := by
  intro j
  induction j with
  | zero =>
    intro r attempt last hjr _ hOk
    match r, hjr with
    | r' + 1, _ =>
      simp only [Nat.add_zero] at hOk
      simp [retryFrom, hOk]
  | succ j ih =>
    intro r attempt last hjr hf hOk
    obtain ⟨e, he⟩ := hf 0 (Nat.succ_pos j)
    simp only [Nat.add_zero] at he
    match r, hjr with
    | r' + 1, hjr =>
      have hjr' : j < r' := Nat.lt_of_succ_lt_succ hjr
      have hr0 : r' ≠ 0 := Nat.pos_iff_ne_zero.mp (Nat.lt_of_le_of_lt (Nat.zero_le j) hjr')
      have hrec := ih r' (attempt + 1) (some e) hjr'
        (fun t ht => by
          obtain ⟨e', he'⟩ := hf (t + 1) (Nat.succ_lt_succ ht)
          refine ⟨e', ?_⟩
          have harr : attempt + 1 + t = attempt + (t + 1) := by omega
          rw [harr]
          exact he')
        (by
          have harr : attempt + 1 + j = attempt + (j + 1) := by omega
          rw [harr]
          exact hOk)
      simp [retryFrom, he, hr0, hrec]

/-- When the operation fails at every one of the `r ≥ 1` remaining
attempts, the retry loop makes `r` invocations, `r - 1` observer calls,
and throws the error of the final attempt. -/
theorem retryFrom_all_fail (fn : Nat → Except ε α) :
    ∀ (r : Nat) (es : Nat → ε) (attempt : Nat) (last : Option ε), 1 ≤ r →
      (∀ t, t < r → fn (attempt + t) = Except.error (es t)) →
      retryFrom fn attempt r last =
        (Except.error (some (es (r - 1))), r, r - 1) := by
  intro r
  induction r with
  | zero => intro es attempt last h; exact absurd h (by decide)
  | succ r' ih =>
    intro es attempt last _ hf
    have he0 := hf 0 (Nat.succ_pos r')
    simp only [Nat.add_zero] at he0
    by_cases hr0 : r' = 0
    · subst hr0
      simp [retryFrom, he0]
    · have hr1 : 1 ≤ r' := Nat.pos_iff_ne_zero.mpr hr0
      have hrec := ih (fun t => es (t + 1)) (attempt + 1) (some (es 0)) hr1
        (fun t ht => by
          have hft := hf (t + 1) (Nat.succ_lt_succ ht)
          have harr : attempt + 1 + t = attempt + (t + 1) := by omega
          rw [harr]
          exact hft)
      have hidx : r' - 1 + 1 = r' := Nat.succ_pred_eq_of_pos hr1
      simp only [hidx] at hrec
      simp [retryFrom, he0, hr0, hrec, Nat.succ_sub_one]
      exact hidx

/-- Claim C2: for every maximum attempt count `N ≥ 1`: if the operation
fails on its first `k < N` invocations and then succeeds, `retry`
returns the success after exactly `k + 1` invocations with exactly `k`
observer calls; if the operation fails on every invocation, `retry`
invokes it exactly `N` times, invokes the observer exactly `N - 1`
times, and propagates the error of the final attempt. -/
theorem retry_contract (N : Nat) (fn : Nat → Except ε α) (hN : 1 ≤ N) :
    (∀ (k : Nat) (a : α), k < N →
      (∀ t, t < k → ∃ e, fn (1 + t) = Except.error e) →
      fn (1 + k) = Except.ok a →
      retryRun fn N = (Except.ok a, k + 1, k)) ∧
    (∀ es : Nat → ε, (∀ t, t < N → fn (1 + t) = Except.error (es t)) →
      retryRun fn N = (Except.error (some (es (N - 1))), N, N - 1)) := by
  constructor
  · intro k a hkN hf hOk
    exact retryFrom_ok_after fn a k N 1 none hkN hf hOk
  · intro es hf
    exact retryFrom_all_fail fn N es 1 none hN hf

/-- Witness for claim C2: with three attempts allowed, an operation
failing once returns its success at the second invocation after one
observer call, and an always-failing operation is invoked three times
with two observer calls and its final error propagated. -/
theorem retry_contract_witness :
    retryRun retryFnOnceFailing 3 = (Except.ok 42, 2, 1) ∧
    retryRun retryFnAlwaysFailing 3 =
      (Except.error (some "always"), 3, 2) := by
  constructor
  · exact (retry_contract 3 retryFnOnceFailing (by decide)).1 1 42 (by decide)
      (fun t ht => ⟨"boom", by
        have h0 : t = 0 := Nat.lt_one_iff.mp ht
        subst h0
        rfl⟩) rfl
  · exact (retry_contract 3 retryFnAlwaysFailing (by decide)).2
      (fun _ => "always") (fun t _ => rfl)

/-! ## Helper lemmas about the capture loop -/

/-- A retry whose first attempt succeeds returns that success. -/
theorem retryRun_first_ok (fn : Nat → Except ε α) (a : α) (R : Nat)
    (hR : 1 ≤ R) (h : fn 1 = Except.ok a) : (retryRun fn R).1 = Except.ok a := by
  match R, hR with
  | r + 1, _ => simp [retryRun, retryFrom, h]

/-- An iteration whose three page actions succeed at their first
attempts produces its frame. -/
theorem iterBody_ok (R : Nat) (env : PageEnv) (f : Frame) (hR : 1 ≤ R)
    (hb : env.bringToFront = Except.ok ())
    (hs : env.screenshotAttempts 1 = Except.ok f)
    (ha : env.advanceAttempts 1 = Except.ok ()) :
    iterBody R env = Except.ok f := by
  have h1 := retryRun_first_ok env.screenshotAttempts f R hR hs
  have h2 := retryRun_first_ok env.advanceAttempts () R hR ha
  simp [iterBody, hb, h1, h2]

/-- From any active `CAPTURING` session, a run of the loop in which
every page action succeeds appends one frame per unit of fuel, ends
`COMPLETED`, and ends its event list with `completed` carrying the
final frame count. -/
theorem captureLoopGo_success (cfg : Config) (env : Nat → PageEnv)
    (f : Nat → Frame) (hR : 1 ≤ cfg.retryAttempts)
    (hEnv : ∀ i, (env i).bringToFront = Except.ok () ∧
      (env i).screenshotAttempts 1 = Except.ok (f i) ∧
      (env i).advanceAttempts 1 = Except.ok ()) :
    ∀ (fuel i : Nat) (s : Sess), s.active = true → s.cstate = CState.CAPTURING →
      ∃ s', captureLoopGo cfg env fuel i s = some s' ∧
        s'.frames.length = s.frames.length + fuel ∧
        s'.cstate = CState.COMPLETED ∧
        s'.events.getLast? = some (Event.completed (s.frames.length + fuel)) := by
  intro fuel
  induction fuel with
  | zero =>
    intro i s hact _
    refine ⟨finishLoop s, rfl, ?_, ?_, ?_⟩
    · simp [finishLoop, hact]
    · simp [finishLoop, hact]
    · simp only [finishLoop, hact, if_true, Nat.add_zero]
      rw [← List.concat_eq_append]
      simp [List.getLast?_concat]
  | succ fuel ih =>
    intro i s hact hst
    have hbody := iterBody_ok cfg.retryAttempts (env i) (f i) hR
      (hEnv i).1 (hEnv i).2.1 (hEnv i).2.2
    have hcond : ¬ s.active = false := by rw [hact]; simp
    have hpause : ¬ s.cstate = CState.PAUSED := by rw [hst]; simp
    obtain ⟨s', hrun, hlen, hcs, hev⟩ := ih (i + 1)
      { s with events := s.events ++ [Event.progress (i + 1)],
               frames := s.frames ++ [f i],
               memoryBytes := s.memoryBytes + (f i).buffer.length }
      hact hst
    have hstep : captureLoopGo cfg env (fuel + 1) i s =
        captureLoopGo cfg env fuel (i + 1)
          { s with events := s.events ++ [Event.progress (i + 1)],
                   frames := s.frames ++ [f i],
                   memoryBytes := s.memoryBytes + (f i).buffer.length } := by
      simp only [captureLoopGo, if_neg hcond, if_neg hpause, hbody]
    refine ⟨s', hstep.trans hrun, ?_, hcs, ?_⟩
    · simp only [List.length_append, List.length_singleton] at hlen
      omega
    · simp only [List.length_append, List.length_singleton] at hev
      have harr : s.frames.length + 1 + fuel = s.frames.length + (fuel + 1) := by
        omega
      rw [harr] at hev
      exact hev

/-- Claim C1: for every configured total page count `N ≥ 1` (and retry
budget of at least one attempt), starting the loop on an empty frame
sequence with every per-page action succeeding and no pause,
cancellation or stop, the loop appends exactly `N` frames and then
emits a `completed` event whose count equals `N`. -/
theorem capture_loop_completes (cfg : Config) (env : Nat → PageEnv)
    (f : Nat → Frame) (_hN : 1 ≤ cfg.totalPages) (hR : 1 ≤ cfg.retryAttempts)
    (hEnv : ∀ i, (env i).bringToFront = Except.ok () ∧
      (env i).screenshotAttempts 1 = Except.ok (f i) ∧
      (env i).advanceAttempts 1 = Except.ok ()) :
    ∃ s', captureLoop cfg env freshCapturing = some s' ∧
      s'.frames.length = cfg.totalPages ∧
      s'.cstate = CState.COMPLETED ∧
      s'.events.getLast? = some (Event.completed cfg.totalPages) := by
  obtain ⟨s', hrun, hlen, hcs, hev⟩ :=
    captureLoopGo_success cfg env f hR hEnv cfg.totalPages 0 freshCapturing
      rfl rfl
  refine ⟨s', ?_, ?_, hcs, ?_⟩
  · simpa [captureLoop, freshCapturing] using hrun
  · simpa [freshCapturing] using hlen
  · simpa [freshCapturing] using hev

/-- Witness for claim C1: with two pages configured and every action
succeeding, the loop produces two frames and finishes with
`completed 2`. -/
theorem capture_loop_completes_witness :
    ∃ s', captureLoop { totalPages := 2, retryAttempts := 1 }
        (fun _ => pageEnvOk) freshCapturing = some s' ∧
      s'.frames.length = 2 ∧
      s'.cstate = CState.COMPLETED ∧
      s'.events.getLast? = some (Event.completed 2) :=
  capture_loop_completes { totalPages := 2, retryAttempts := 1 }
    (fun _ => pageEnvOk) (fun _ => frameA) (by decide) (by decide)
    (fun _ => ⟨rfl, rfl, rfl⟩)

/-- One loop iteration whose body succeeds steps to the next index,
appending the progress event, the frame and its byte size. -/
theorem captureLoopGo_step_ok (cfg : Config) (env : Nat → PageEnv)
    (i fuel : Nat) (s : Sess) (fr : Frame) (hact : s.active = true)
    (hpause : s.cstate ≠ CState.PAUSED)
    (hbody : iterBody cfg.retryAttempts (env i) = Except.ok fr) :
    captureLoopGo cfg env (fuel + 1) i s =
      captureLoopGo cfg env fuel (i + 1)
        { s with events := s.events ++ [Event.progress (i + 1)],
                 frames := s.frames ++ [fr],
                 memoryBytes := s.memoryBytes + fr.buffer.length } := by
  have hcond : ¬ s.active = false := by rw [hact]; simp
  simp only [captureLoopGo, if_neg hcond, if_neg hpause, hbody]

/-- One loop iteration whose body throws stops the loop: the fatal
error event (carrying the 1-based page index and no `recoverable`
field) is emitted, the active flag is cleared, the frames are kept, and
the state is left as it was. -/
theorem captureLoopGo_step_err (cfg : Config) (env : Nat → PageEnv)
    (i fuel : Nat) (s : Sess) (errMsg : Option String)
    (hact : s.active = true) (hpause : s.cstate ≠ CState.PAUSED)
    (hbody : iterBody cfg.retryAttempts (env i) = Except.error errMsg) :
    captureLoopGo cfg env (fuel + 1) i s = some
      { s with
          events := (s.events ++ [Event.progress (i + 1)]) ++
            [Event.errorEv errMsg (some (i + 1)) none],
          active := false } := by
  have hcond : ¬ s.active = false := by rw [hact]; simp
  simp only [captureLoopGo, if_neg hcond, if_neg hpause, hbody]
  simp [finishLoop]

/-- A loop run that succeeds on pages `i .. i+j-1` and throws on page
`i+j` ends with exactly the `j` successful frames, the active flag
cleared, the state untouched, and the event trace closed by the fatal
error event. -/
theorem captureLoopGo_ok_then_err (cfg : Config) (env : Nat → PageEnv)
    (f : Nat → Frame) (errMsg : Option String) :
    ∀ (j fuel i : Nat) (s : Sess), j < fuel → s.active = true →
      s.cstate = CState.CAPTURING →
      (∀ t, i ≤ t → t < i + j → iterBody cfg.retryAttempts (env t) = Except.ok (f t)) →
      iterBody cfg.retryAttempts (env (i + j)) = Except.error errMsg →
      captureLoopGo cfg env fuel i s = some
        { frames := s.frames ++ (List.range' i j).map f,
          cstate := s.cstate,
          active := false,
          events := s.events ++
            (List.range' i (j + 1)).map (fun t => Event.progress (t + 1)) ++
            [Event.errorEv errMsg (some (i + j + 1)) none],
          memoryBytes := s.memoryBytes +
            ((List.range' i j).map (fun t => (f t).buffer.length)).sum } := by
  intro j
  induction j with
  | zero =>
    intro fuel i s hfuel hact hst _ hErr
    match fuel, hfuel with
    | fu + 1, _ =>
      have hpause : s.cstate ≠ CState.PAUSED := by rw [hst]; simp
      rw [Nat.add_zero] at hErr
      rw [captureLoopGo_step_err cfg env i fu s errMsg hact hpause hErr]
      simp [List.range']
  | succ j ih =>
    intro fuel i s hfuel hact hst hOk hErr
    match fuel, hfuel with
    | fu + 1, hfuel =>
      have hpause : s.cstate ≠ CState.PAUSED := by rw [hst]; simp
      have hbody : iterBody cfg.retryAttempts (env i) = Except.ok (f i) :=
        hOk i (Nat.le_refl i) (by omega)
      rw [captureLoopGo_step_ok cfg env i fu s (f i) hact hpause hbody]
      have hrec := ih fu (i + 1)
        { s with events := s.events ++ [Event.progress (i + 1)],
                 frames := s.frames ++ [f i],
                 memoryBytes := s.memoryBytes + (f i).buffer.length }
        (by omega) hact hst
        (fun t ht1 ht2 => hOk t (by omega) (by omega))
        (by
          have harr : i + 1 + j = i + (j + 1) := by omega
          rw [harr]
          exact hErr)
      rw [hrec]
      have harr : i + 1 + j + 1 = i + (j + 1) + 1 := by omega
      simp only [harr]
      simp [List.range', List.append_assoc, Nat.add_assoc]

/-- Claim C3 (amended): if an iteration of the capture loop fails with
an unrecoverable error (every screenshot attempt of the retry budget
throws), the loop emits an error event that carries the failing 1-based
page index but no `recoverable` flag at all (not `recoverable: false`),
retains the already-captured partial frames, clears the active-loop
flag, and exits without ever emitting a completion event; the session
state stays `Capturing` (it does not transition to `Idle`). -/
theorem capture_loop_fatal_error (cfg : Config) (env : Nat → PageEnv)
    (f : Nat → Frame) (es : Nat → String) (j : Nat)
    (hR : 1 ≤ cfg.retryAttempts) (hj : j < cfg.totalPages)
    (hOk : ∀ t, t < j → iterBody cfg.retryAttempts (env t) = Except.ok (f t))
    (hb : (env j).bringToFront = Except.ok ())
    (hshot : ∀ t, t < cfg.retryAttempts →
      (env j).screenshotAttempts (1 + t) = Except.error (es t)) :
    ∃ s', captureLoop cfg env freshCapturing = some s' ∧
      s'.frames = (List.range j).map f ∧
      s'.active = false ∧
      s'.cstate = CState.CAPTURING ∧
      s'.events = (List.range (j + 1)).map (fun t => Event.progress (t + 1)) ++
        [Event.errorEv (some (es (cfg.retryAttempts - 1))) (some (j + 1)) none] ∧
      (∀ c, Event.completed c ∉ s'.events) := by
  have hr := retryFrom_all_fail (env j).screenshotAttempts cfg.retryAttempts
    es 1 none hR hshot
  have hfail : iterBody cfg.retryAttempts (env j) =
      Except.error (some (es (cfg.retryAttempts - 1))) := by
    simp [iterBody, hb, retryRun, hr]
  have hrun := captureLoopGo_ok_then_err cfg env f
    (some (es (cfg.retryAttempts - 1))) j cfg.totalPages 0 freshCapturing hj
    rfl rfl (fun t ht1 ht2 => hOk t (by omega)) (by simpa using hfail)
  refine ⟨{ frames := (List.range j).map f,
            cstate := CState.CAPTURING,
            active := false,
            events := (List.range (j + 1)).map (fun t => Event.progress (t + 1)) ++
              [Event.errorEv (some (es (cfg.retryAttempts - 1))) (some (j + 1)) none],
            memoryBytes := ((List.range j).map (fun t => (f t).buffer.length)).sum },
          ?_, rfl, rfl, rfl, rfl, ?_⟩
  · simpa [captureLoop, freshCapturing, List.range_eq_range'] using hrun
  · intro c
    simp [List.mem_append, List.mem_map]

/-- Witness for claim C3 (amended): two pages configured, the first
page succeeds and the second exhausts its single screenshot attempt:
the final session keeps the one captured frame, is inactive, still
`CAPTURING`, and its trace ends with the error event for page 2 whose
`recoverable` field is absent. -/
theorem capture_loop_fatal_error_witness :
    ∃ s', captureLoop { totalPages := 2, retryAttempts := 1 } envMixed
        freshCapturing = some s' ∧
      s'.frames = (List.range 1).map (fun _ => frameA) ∧
      s'.active = false ∧
      s'.cstate = CState.CAPTURING ∧
      s'.events = (List.range 2).map (fun t => Event.progress (t + 1)) ++
        [Event.errorEv (some "shot failed") (some 2) none] ∧
      (∀ c, Event.completed c ∉ s'.events) :=
  capture_loop_fatal_error { totalPages := 2, retryAttempts := 1 } envMixed
    (fun _ => frameA) (fun _ => "shot failed") 1 (by decide) (by decide)
    (fun t ht => by
      have h0 : t = 0 := Nat.lt_one_iff.mp ht
      subst h0
      rfl)
    rfl (fun t _ => rfl)

/-- Counterexample to claim C3 as stated: with one page configured and
its only screenshot attempt failing, the loop ends with the session
state still `CAPTURING` — not `IDLE` as the claim requires — and the
emitted error event carries no `recoverable` field (its `recoverable`
slot is `none`, not `some false`). -/
theorem capture_loop_fatal_error_cex :
    captureLoop { totalPages := 1, retryAttempts := 1 }
        (fun _ => pageEnvShotFails) freshCapturing =
      some { frames := [], cstate := CState.CAPTURING, active := false,
             events := [Event.progress 1,
               Event.errorEv (some "shot failed") (some 1) none],
             memoryBytes := 0 } ∧
    CState.CAPTURING ≠ CState.IDLE := by
  decide

/-- Claim C4 (amended): `startCapture` is rejected exactly when there is
no page or the session state is `Idle`; in every other state — `Ready`,
`Capturing`, `Paused`, `Completed` — it proceeds.  In particular,
starting a second capture while a capture loop is already active (state
`Capturing`, loop flag set) is accepted and starts another loop; it is
neither rejected nor queued. -/
theorem startCapture_guard (hasPage : Bool) (s : Sess) :
    ((∃ msg, startCapture hasPage s = Except.error msg) ↔
      (hasPage = false ∨ s.cstate = CState.IDLE)) ∧
    (s.cstate = CState.CAPTURING → hasPage = true →
      startCapture hasPage s =
        Except.ok { s with cstate := CState.CAPTURING, active := true }) := by
  constructor
  · by_cases hcond : hasPage = false ∨ s.cstate = CState.IDLE
    · simp [startCapture, hcond]
    · simp [startCapture, hcond]
  · intro hcs hp
    have hcond : ¬ (hasPage = false ∨ s.cstate = CState.IDLE) := by
      rw [hp, hcs]
      simp
    simp [startCapture, hcond]

/-- Witness for claim C4 (amended): on an actively capturing session,
`startCapture` succeeds instead of being rejected. -/
theorem startCapture_guard_witness :
    startCapture true freshCapturing = Except.ok freshCapturing :=
  (startCapture_guard true freshCapturing).2 rfl rfl

/-- Counterexample to claim C4 as stated: with a page attached and a
capture loop already active (state `Capturing`, loop flag set),
`startCapture` is not rejected — it returns successfully, so a second
loop is started. -/
theorem startCapture_guard_cex :
    startCapture true freshCapturing = Except.ok freshCapturing ∧
    freshCapturing.cstate = CState.CAPTURING ∧
    freshCapturing.active = true := by
  refine ⟨?_, rfl, rfl⟩
  simp [startCapture, freshCapturing]

/-- Claim C6 (amended): `resumeCapture` is state-guarded — a no-op
unless the state is `Paused`, from which it moves to `Capturing` — but
`pauseCapture` is not: it unconditionally sets the state to `Paused`,
so it is idempotent when the session is already paused yet changes the
state when called from any other state (for example from `Idle`). -/
theorem pause_resume_guard (s : Sess) :
    (pauseCapture s).cstate = CState.PAUSED ∧
    (s.cstate = CState.PAUSED → pauseCapture s = s) ∧
    (s.cstate ≠ CState.PAUSED → resumeCapture s = s) ∧
    (s.cstate = CState.PAUSED →
      resumeCapture s = { s with cstate := CState.CAPTURING }) := by
  obtain ⟨fr, cs, ac, ev, mb⟩ := s
  refine ⟨rfl, ?_, ?_, ?_⟩
  · intro h
    simp only at h
    subst h
    rfl
  · intro h
    simp only at h
    simp [resumeCapture, h]
  · intro h
    simp only at h
    subst h
    rfl

/-- Witness for claim C6 (amended): pausing an already paused session
leaves it unchanged, and resuming an idle session leaves it unchanged. -/
theorem pause_resume_guard_witness :
    pauseCapture sessPaused = sessPaused ∧ resumeCapture sessIdle = sessIdle :=
  ⟨(pause_resume_guard sessPaused).2.1 rfl,
   (pause_resume_guard sessIdle).2.2.1 (by decide)⟩

/-- Counterexample to claim C6 as stated: `pauseCapture` on an `Idle`
session — a state that is not a valid source for the pause transition —
changes the state to `Paused` instead of leaving it unchanged. -/
theorem pause_resume_guard_cex :
    (pauseCapture sessIdle).cstate = CState.PAUSED ∧
    sessIdle.cstate = CState.IDLE ∧
    CState.PAUSED ≠ CState.IDLE := by
  decide

/-! ## Helper lemmas about the stability detector -/

/-- With the default timing (5 s timeout, 300 ms base interval) and
every signature differing from its predecessor, the detector never
declares stability: every iteration takes the reset branch, the poll
clock advances by the base interval, and the run exits the loop at the
17th poll when the timeout has elapsed. -/
theorem stabilizeGo_all_diff (sig : Nat → Nat)
    (hdiff : ∀ j, sig (j + 1) ≠ sig j) :
    ∀ (fuel k : Nat) (last : Option Nat),
      (last = none ∨ ∃ k', k = k' + 1 ∧ last = some (sig k')) →
      18 ≤ fuel + k → k ≤ 17 →
      stabilizeGo (fun j => some (sig j)) 50000 3000 8000 fuel k
        (3000 * k) last 0 3000 = (StabOutcome.timedOut, 17) := by
  intro fuel
  induction fuel with
  | zero =>
    intro k last _ h18 h17
    omega
  | succ fuel ih =>
    intro k last hlast h18 h17
    by_cases hk : k ≤ 16
    · have hcond : 3000 * k < 50000 := by omega
    -- every comparison takes the mismatch branch
      have hmis : ¬ last = some (sig k) := by
        rcases hlast with h | ⟨k', rfl, h⟩
        · rw [h]
          simp
        · rw [h]
          simp only [Option.some.injEq]
          intro hEq
          exact hdiff k' hEq.symm
      have hstep : stabilizeGo (fun j => some (sig j)) 50000 3000 8000
          (fuel + 1) k (3000 * k) last 0 3000 =
          stabilizeGo (fun j => some (sig j)) 50000 3000 8000 fuel (k + 1)
            (3000 * k + 3000) (some (sig k)) 0 3000 := by
        simp only [stabilizeGo, if_pos hcond, if_neg hmis]
      have harith : 3000 * k + 3000 = 3000 * (k + 1) := by ring
      rw [hstep, harith]
      exact ih (k + 1) (some (sig k)) (Or.inr ⟨k, rfl, rfl⟩) (by omega) (by omega)
    · have hk17 : k = 17 := by omega
      subst hk17
      have hcond : ¬ (3000 * 17 < 50000) := by omega
      simp only [stabilizeGo, if_neg hcond]

/-- Claim C5 (amended): the detector declares stability only after two
consecutive matches, i.e. three consecutive identical signatures — a
constant signature stream makes it return stable at the third poll,
well before the 5-second timeout; a stream in which every poll differs
from the previous one never declares stability: the counter and the
interval are reset to the base on every change, and the run returns
only when the timeout elapses (after 17 polls, at which point the
did-not-stabilize warning is logged). -/
theorem stability_detector :
    (∀ (c fuel : Nat), 3 ≤ fuel →
      waitForScreenToStabilize (fun _ => some c) fuel =
        (StabOutcome.stable, 3)) ∧
    (∀ sig : Nat → Nat, (∀ j, sig (j + 1) ≠ sig j) → ∀ fuel, 18 ≤ fuel →
      waitForScreenToStabilize (fun j => some (sig j)) fuel =
        (StabOutcome.timedOut, 17)) := by
  constructor
  · intro c fuel hfuel
    match fuel, hfuel with
    | n + 3, _ =>
      show stabilizeGo (fun _ => some c) 50000 3000 8000 (n + 3) 0 0 none
          0 3000 = (StabOutcome.stable, 3)
      norm_num [stabilizeGo, min_def]
      simp
  · intro sig hdiff fuel hfuel
    show stabilizeGo (fun j => some (sig j)) 50000 3000 8000 fuel 0 0 none
        0 3000 = (StabOutcome.timedOut, 17)
    have h0 : (0 : Nat) = 3000 * 0 := by norm_num
    rw [h0]
    exact stabilizeGo_all_diff sig hdiff fuel 0 none (Or.inl rfl) (by omega)
      (by omega)

/-- Witness for claim C5 (amended): a constant stream stabilizes at the
third poll; the identity stream (every signature new) times out after
17 polls. -/
theorem stability_detector_witness :
    waitForScreenToStabilize (fun _ => some 5) 3 = (StabOutcome.stable, 3) ∧
    waitForScreenToStabilize (fun j => some j) 18 =
      (StabOutcome.timedOut, 17) :=
  ⟨stability_detector.1 5 3 (Nat.le_refl 3),
   stability_detector.2 (fun j => j) (fun j => Nat.succ_ne_self j) 18
     (Nat.le_refl 18)⟩

/-- Counterexample to claim C5 as stated: a stream whose first two
polls yield identical signatures (then always-changing ones) does not
make the detector return before the overall timeout — the run times
out after 17 polls instead of declaring stability. -/
theorem stability_detector_cex :
    pollsTwoThenDiff 0 = pollsTwoThenDiff 1 ∧
    waitForScreenToStabilize pollsTwoThenDiff 20 =
      (StabOutcome.timedOut, 17) := by
  decide

/-- Claim C7: during a batch run, items are processed strictly in
enqueue order, and a failure of one item (here: its navigation
throwing) marks it `failed` with the error message without aborting the
run: for a queue `[A, B, C]` where only B's navigation throws, the
final statuses are `completed, failed, completed`, the result list has
exactly three entries with B's marked unsuccessful, and the event trace
shows the items handled in order 1, 2, 3 before the completion event. -/
theorem batch_partial_failure (env : Nat → ItemEnv) (a b c : BItem)
    (ra rc : BResult) (m : String) (st : BatchSt)
    (hq : st.queue = [a, b, c]) (hproc : st.isProcessing = false)
    (h0 : processItem (env 0) = Except.ok ra)
    (h1p : (env 1).pageExists = true)
    (h1n : (env 1).navigate = Except.error m)
    (h2 : processItem (env 2) = Except.ok rc) :
    startProcessing env st = Except.ok
      { queue := [{ a with status := BStatus.completed, result := some ra },
                  { b with status := BStatus.failed, result := some (bresFail m) },
                  { c with status := BStatus.completed, result := some rc }],
        isProcessing := false,
        currentIndex := 2,
        results := [ra, bresFail m, rc],
        events := st.events ++
          [BEvent.progress 1, BEvent.progress 1, BEvent.progress 2,
           BEvent.progress 2, BEvent.progress 3, BEvent.progress 3,
           BEvent.complete] } := by
  have h1 : processItem (env 1) = Except.error m := by
    simp [processItem, h1p, h1n]
  simp [startProcessing, runItems, hq, hproc, h0, h1, h2, bresFail]

/-- Witness for claim C7: the concrete three-item queue where only the
second navigation throws ends `completed, failed, completed` with three
results, the second unsuccessful. -/
theorem batch_partial_failure_witness :
    startProcessing envSecondFails batchThree = Except.ok
      { queue := [{ (bItem 1 "a") with status := BStatus.completed, result := some bresShot },
                  { (bItem 2 "b") with status := BStatus.failed, result := some (bresFail "nav error") },
                  { (bItem 3 "c") with status := BStatus.completed, result := some bresShot }],
        isProcessing := false,
        currentIndex := 2,
        results := [bresShot, bresFail "nav error", bresShot],
        events := batchThree.events ++
          [BEvent.progress 1, BEvent.progress 1, BEvent.progress 2,
           BEvent.progress 2, BEvent.progress 3, BEvent.progress 3,
           BEvent.complete] } :=
  batch_partial_failure envSecondFails (bItem 1 "a") (bItem 2 "b")
    (bItem 3 "c") bresShot bresShot "nav error" batchThree rfl rfl rfl rfl
    rfl rfl

/-! ## Helper lemmas about the batch queue ids -/

/-- The ids of the items built by one `addToQueue` map are
`Date.now() + idx` for the successive indices. -/
theorem mkItems_ids (clock : Nat → Nat) :
    ∀ (urls : List String) (idx : Nat),
      (mkItems clock idx urls).map (fun it => it.id) =
        (List.range' idx urls.length).map (fun j => clock j + j) := by
  intro urls
  induction urls with
  | nil => intro idx; rfl
  | cons u rest ih =>
    intro idx
    simp [mkItems, List.range', ih (idx + 1)]

/-- Claim C8 (amended): the ids assigned by one `addToQueue` call are
`Date.now() + idx` over the item indices; when the clock does not go
backwards during the call they are strictly increasing, hence unique
within the call.  Across separate calls uniqueness holds only under a
timing condition: all ids of a later call exceed those of an earlier
one when the later call's clock reading is at least the earlier
reading plus the earlier call's item count.  (Two calls within the same
millisecond can assign duplicate ids.) -/
theorem addToQueue_ids (clock : Nat → Nat) (urls : List String)
    (st : BatchSt) (hmono : Monotone clock) :
    ((addToQueue clock urls st).2 =
      (List.range urls.length).map (fun j => clock j + j)) ∧
    (addToQueue clock urls st).2.Pairwise (· < ·) ∧
    (∀ (now₂ : Nat) (urls₂ : List String) (st₂ : BatchSt),
      clock (urls.length - 1) + urls.length ≤ now₂ →
      ((addToQueue clock urls st).2 ++
        (addToQueue (fun _ => now₂) urls₂ st₂).2).Pairwise (· < ·)) := by
  have hids : ∀ (ck : Nat → Nat) (us : List String) (s : BatchSt),
      (addToQueue ck us s).2 = (List.range us.length).map (fun j => ck j + j) := by
    intro ck us s
    show (mkItems ck 0 us).map (fun it => it.id) = _
    rw [mkItems_ids ck us 0, List.range_eq_range']
  have hpair : ∀ (ck : Nat → Nat), Monotone ck →
      ∀ us : List String,
        ((List.range us.length).map (fun j => ck j + j)).Pairwise (· < ·) := by
    intro ck hck us
    refine List.Pairwise.map _ ?_ (List.pairwise_lt_range us.length)
    intro x y hxy
    have hle := hck (Nat.le_of_lt hxy)
    omega
  refine ⟨hids clock urls st, ?_, ?_⟩
  · rw [hids clock urls st]
    exact hpair clock hmono urls
  · intro now₂ urls₂ st₂ hgap
    rw [hids clock urls st, hids (fun _ => now₂) urls₂ st₂]
    rw [List.pairwise_append]
    refine ⟨hpair clock hmono urls, hpair (fun _ => now₂) (fun _ _ _ => Nat.le_refl _) urls₂, ?_⟩
    intro x hx y hy
    simp only [List.mem_map, List.mem_range] at hx hy
    obtain ⟨j, hj, rfl⟩ := hx
    obtain ⟨j', _, rfl⟩ := hy
    have hle : clock j ≤ clock (urls.length - 1) := hmono (by omega)
    omega

/-- Witness for claim C8 (amended): with the identity clock, adding two
items yields the strictly increasing ids `[0, 2]`, and a later call at
clock reading 10 keeps all ids strictly increasing across the calls. -/
theorem addToQueue_ids_witness :
    ((addToQueue (fun j => j) ["a", "b"] batchInit).2 =
      (List.range 2).map (fun j => j + j)) ∧
    (addToQueue (fun j => j) ["a", "b"] batchInit).2.Pairwise (· < ·) ∧
    ((addToQueue (fun j => j) ["a", "b"] batchInit).2 ++
      (addToQueue (fun _ => 10) ["c"] batchInit).2).Pairwise (· < ·) := by
  have h := addToQueue_ids (fun j => j) ["a", "b"] batchInit
    (fun _ _ hab => hab)
  exact ⟨h.1, h.2.1, h.2.2 10 ["c"] batchInit (by decide)⟩

/-- Counterexample to claim C8 as stated: two `addToQueue` calls made
at the same clock reading (`Date.now()` returning 1000 both times, i.e.
within the same millisecond) assign the id 1000 twice, so two queued
items share an id. -/
theorem addToQueue_ids_cex :
    ((addToQueue (fun _ => 1000) ["b"]
        (addToQueue (fun _ => 1000) ["a"] batchInit).1).1.queue.map
      (fun it => it.id)) = [1000, 1000] ∧
    ¬ ([1000, 1000] : List Nat).Nodup := by
  decide

/-! ## Helper lemmas about document assembly -/

/-- When every frame embeds successfully, the assembled page list is
one page per frame in order, each sized to its embed dimensions with
the full-page image and its `pageText` layer. -/
theorem buildPages_all_embed (enableOcr : Bool)
    (embed : Nat → Option (Nat × Nat)) (fontOk : Nat → Bool)
    (ocrResults : List OCRRes) (dims : Nat → Nat × Nat) :
    ∀ (frames : List Frame) (i : Nat),
      (∀ t, i ≤ t → t < i + frames.length → embed t = some (dims t)) →
      buildPages enableOcr embed fontOk ocrResults i frames =
        (List.range' i frames.length).map (fun t =>
          { width := (dims t).1, height := (dims t).2,
            image := some (0, 0, (dims t).1, (dims t).2),
            textLayer := pageText enableOcr fontOk ocrResults t }) := by
  intro frames
  induction frames with
  | nil => intro i _; rfl
  | cons fr rest ih =>
    intro i hembed
    have hi : embed i = some (dims i) := by
      refine hembed i (Nat.le_refl i) ?_
      simp only [List.length_cons]
      omega
    have htail := ih (i + 1) (fun t ht1 ht2 => by
      refine hembed t (by omega) ?_
      simp only [List.length_cons] at ht2 ⊢
      omega)
    simp [buildPages, hi, htail, List.range']

/-- Claim C9: `stopAndSave` on `M ≥ 1` accumulated frames whose embeds
all succeed produces a document with exactly `M` pages, each page sized
to its frame's embed dimensions with the frame drawn as the full-page
image; with OCR disabled no page carries any text; with OCR enabled,
the OCR run succeeding, and a non-empty OCR result for a frame whose
font embeds, that frame's page carries the near-invisible text layer
(font size 1, opacity 0.01, white, at the page origin) containing its
OCR result's text. -/
theorem stop_and_save_document (enableOcr : Bool) (env : SaveEnv)
    (s : Sess) (dims : Nat → Nat × Nat) (M : Nat)
    (hM : s.frames.length = M) (hM1 : 1 ≤ M)
    (hembed : ∀ t, t < M → env.embed t = some (dims t)) :
    ∃ pages, (stopAndSave enableOcr env s).2 = some pages ∧
      pages.length = M ∧
      (∀ t, t < M → pages[t]? = some
        { width := (dims t).1, height := (dims t).2,
          image := some (0, 0, (dims t).1, (dims t).2),
          textLayer := pageText enableOcr env.fontOk
            (ocrResultsOf enableOcr env) t }) ∧
      (enableOcr = false → ∀ p ∈ pages, p.textLayer = none) ∧
      (∀ rs, enableOcr = true → env.ocrOutcome = Except.ok rs →
        ∀ t, t < M → ∀ r, rs[t]? = some r → r.text ≠ "" →
          env.fontOk t = true →
          ∃ p, pages[t]? = some p ∧
            p.textLayer = some { text := r.text, x := 0, y := 0, size := 1,
                                 opacityHundredths := 1, white := true }) := by
  have hlen0 : ¬ s.frames.length = 0 := by omega
  have hpages := buildPages_all_embed enableOcr env.embed env.fontOk
    (ocrResultsOf enableOcr env) dims s.frames 0
    (fun t _ ht2 => hembed t (by omega))
  have hsnd : (stopAndSave enableOcr env s).2 =
      some (buildPages enableOcr env.embed env.fontOk
        (ocrResultsOf enableOcr env) 0 s.frames) := by
    simp [stopAndSave, hlen0]
  refine ⟨_, hsnd, ?_, ?_, ?_, ?_⟩
  · rw [hpages]
    simp [hM]
  · intro t ht
    rw [hpages]
    simp only [List.getElem?_map, List.getElem?_range', hM]
    simp [ht]
  · intro hocr
    rw [hpages]
    intro p hp
    simp only [List.mem_map] at hp
    obtain ⟨t, _, rfl⟩ := hp
    simp [pageText, hocr]
  · intro rs hocr hout t ht r hr hrtext hfont
    have hres : ocrResultsOf enableOcr env = rs := by
      simp [ocrResultsOf, hocr, hout]
    rw [hpages]
    refine ⟨{ width := (dims t).1, height := (dims t).2,
              image := some (0, 0, (dims t).1, (dims t).2),
              textLayer := pageText enableOcr env.fontOk
                (ocrResultsOf enableOcr env) t }, ?_, ?_⟩
    · simp only [List.getElem?_map, List.getElem?_range', hM]
      simp [ht]
    · rw [hocr] at hres
      simp [pageText, hocr, hres, hr, hrtext, hfont]

/-- Witness for claim C9: saving a session holding two frames with OCR
enabled and results `hello`, `world` yields a two-page document whose
pages carry the frames at their embed dimensions and the invisible OCR
text layers. -/
theorem stop_and_save_document_witness :
    ∃ pages, (stopAndSave true saveEnvW sessTwoFrames).2 = some pages ∧
      pages.length = 2 ∧
      (∀ t, t < 2 → pages[t]? = some
        { width := 10 + t, height := 20,
          image := some (0, 0, 10 + t, 20),
          textLayer := pageText true saveEnvW.fontOk
            (ocrResultsOf true saveEnvW) t }) ∧
      (true = false → ∀ p ∈ pages, p.textLayer = none) ∧
      (∀ rs, true = true → saveEnvW.ocrOutcome = Except.ok rs →
        ∀ t, t < 2 → ∀ r, rs[t]? = some r → r.text ≠ "" →
          saveEnvW.fontOk t = true →
          ∃ p, pages[t]? = some p ∧
            p.textLayer = some { text := r.text, x := 0, y := 0, size := 1,
                                 opacityHundredths := 1, white := true }) :=
  stop_and_save_document true saveEnvW sessTwoFrames (fun t => (10 + t, 20))
    2 rfl (by decide) (fun t _ => rfl)

/-- Claim C10: `sanitizeFilename` is supposed to guarantee (per its own
doc comment, "Sanitize filename to prevent path traversal") an output
free of `/`, `\` and `..`.  The code runs the `..`-removal pass before
the invalid-character pass, so removing the invalid characters can
reunite two dots: the input `.<>.` sanitizes to `..`, whose join with
the output directory resolves to its parent — the download and delete
endpoints' path-traversal protection is broken on this input. -/
theorem sanitizeFilename_dotdot_bug :
    sanitizeFilename ".<>." = ".." ∧
    List.IsInfix ['.', '.'] (sanitizeFilename ".<>.").data := by
  refine ⟨by decide, [], [], ?_⟩
  decide

end SmartCapture
